import Mathlib

/-!
Verification development for `remove_auth.py`, a script that strips
authentication imports and leading guard blocks from TypeScript files
using Python regular expressions and rewrites changed files in place.

The embedding models:
* the seven regular expressions of the script (four import patterns, two
  guard-block patterns, one blank-line collapsing pattern) as values of a
  small regex syntax `RE`;
* Python `re` matching semantics for the constructs these patterns use
  (literals, character classes, greedy `*`, `+`, `?`, concatenation,
  leftmost match, backtracking with longest-first preference) via `rems`,
  which enumerates all possible post-match remainders in backtracking
  priority order, the successful match being the first one;
* `re.sub` (global, non-overlapping, leftmost, scanning resuming after
  each match) via `reSub`; the guard patterns, whose replacement is the
  capture group `\1` holding the function header, via `reSubG`;
* `remove_auth_from_file` including its exception handling (read or write
  failures are represented by `Except`/`Option` parameters), and `main`'s
  modified-file counting.

The `re.MULTILINE` and `re.DOTALL` flags passed by the script only affect
`^`, `$` and `.`, none of which occur in the patterns, so they are no-ops.
-/

/-- Whitespace as matched by Python's `\s` on `str` patterns: ASCII
whitespace, the file/group/record/unit separators, NEL, and the Unicode
space characters. -/
def isPySpace (c : Char) : Bool :=
  c = ' ' || c = '\t' || c = '\n' || c = '\r' || c = '\x0b' || c = '\x0c' ||
  c = '\x1c' || c = '\x1d' || c = '\x1e' || c = '\x1f' || c = '\x85' ||
  c = '\xa0' || c = '\u1680' || c = '\u2000' || c = '\u2001' || c = '\u2002' ||
  c = '\u2003' || c = '\u2004' || c = '\u2005' || c = '\u2006' || c = '\u2007' ||
  c = '\u2008' || c = '\u2009' || c = '\u200a' || c = '\u2028' || c = '\u2029' ||
  c = '\u202f' || c = '\u205f' || c = '\u3000'

/-- Word characters as matched by Python's `\w`, restricted to ASCII
(`[A-Za-z0-9_]`); the patterns only use `\w+` for TypeScript function
names, and every input considered here is ASCII. -/
def isWordChar (c : Char) : Bool :=
  c.isAlphanum || c = '_'

/-- The character class `['\"]` of the import patterns. -/
def isQuote (c : Char) : Bool :=
  c = '\'' || c = '"'

/-- The character class `[^)]` of the argument-list parts `\([^)]*\)`. -/
def isNotRParen (c : Char) : Bool :=
  !(c = ')')

/-- The single character `\n`. -/
def isNL (c : Char) : Bool :=
  c = '\n'

/-- Regex syntax covering exactly the constructs used by the script's
patterns: the empty regex, a single character, a character class, greedy
star / plus / option over a character class, and concatenation. -/
inductive RE where
  | eps : RE
  | chr : Char → RE
  | cls : (Char → Bool) → RE
  | star : (Char → Bool) → RE
  | plus : (Char → Bool) → RE
  | opt : (Char → Bool) → RE
  | cat : RE → RE → RE

/-- Remainders of matching a greedy `p*` against `s`, longest match
first: `[s minus its maximal p-prefix, …, s]`. -/
def starRems (p : Char → Bool) : List Char → List (List Char)
  | [] => [[]]
  | c :: cs => if p c then starRems p cs ++ [c :: cs] else [c :: cs]

/-- All remainders after matching `r` against a prefix of `s`, in the
backtracking priority order of Python's `re` (greedy quantifiers try the
longest extent first); the overall match uses the first entry. -/
def rems : RE → List Char → List (List Char)
  | .eps, s => [s]
  | .chr _, [] => []
  | .chr c, a :: as => if a = c then [as] else []
  | .cls _, [] => []
  | .cls p, a :: as => if p a then [as] else []
  | .star p, s => starRems p s
  | .plus _, [] => []
  | .plus p, a :: as => if p a then starRems p as else []
  | .opt _, [] => [[]]
  | .opt p, a :: as => if p a then as :: [a :: as] else [a :: as]
  | .cat a b, s => (rems a s).flatMap (rems b)

/-- Attempt to match `r` against a prefix of `s`; returns the remainder
after the match Python's backtracking engine finds (the priority-first
success), or `none` if the pattern does not match at this position. -/
def tryMatch (r : RE) (s : List Char) : Option (List Char) :=
  (rems r s).head?

/-- Leftmost match of `r` in `s`: returns `(pre, matched, rest)` with
`s = pre ++ matched ++ rest`, scanning positions left to right exactly as
Python's `re.finditer`/`re.sub` do. -/
def firstMatch (r : RE) : List Char → Option (List Char × List Char × List Char)
  | [] =>
    match tryMatch r [] with
    | some _ => some ([], [], [])
    | none => none
  | c :: cs =>
    match tryMatch r (c :: cs) with
    | some rest =>
      some ([], (c :: cs).take ((c :: cs).length - rest.length), rest)
    | none => (firstMatch r cs).map fun x => (c :: x.1, x.2.1, x.2.2)

/-- Fuelled global substitution: replace every non-overlapping leftmost
match of `r` by `repl`, resuming the scan after each match, as `re.sub`
does (an empty match copies one character and advances). -/
def reSubAux (r : RE) (repl : List Char) : Nat → List Char → List Char
  | 0, s => s
  | fuel + 1, s =>
    match firstMatch r s with
    | none => s
    | some (pre, [], rest) =>
      match rest with
      | [] => pre ++ repl
      | c :: cs => pre ++ repl ++ c :: reSubAux r repl fuel cs
    | some (pre, _ :: _, rest) => pre ++ repl ++ reSubAux r repl fuel rest

/-- Python's `re.sub(pattern, repl, s)` for the patterns in scope. -/
def reSub (r : RE) (repl : List Char) (s : List Char) : List Char :=
  reSubAux r repl (s.length + 1) s

/-- Matching for the guard patterns, which consist of a capture group
`g1` (the function header, kept by the `\1` replacement) followed by the
guard body `g2`: returns the remainders after `g1` and after the full
match for the priority-first success. -/
def tryMatchSplit (g1 g2 : RE) (s : List Char) : Option (List Char × List Char) :=
  ((rems g1 s).flatMap (fun r1 => (rems g2 r1).map (fun r2 => (r1, r2)))).head?

/-- Leftmost match for a guard pattern: `(pre, keep, rest)` where `keep`
is the text captured by group 1 and `rest` follows the full match. -/
def firstMatchG (g1 g2 : RE) : List Char → Option (List Char × List Char × List Char)
  | [] =>
    match tryMatchSplit g1 g2 [] with
    | some _ => some ([], [], [])
    | none => none
  | c :: cs =>
    match tryMatchSplit g1 g2 (c :: cs) with
    | some (r1, r2) =>
      some ([], (c :: cs).take ((c :: cs).length - r1.length), r2)
    | none => (firstMatchG g1 g2 cs).map fun x => (c :: x.1, x.2.1, x.2.2)

/-- Fuelled global substitution with replacement `\1` (the captured
function header). A full match is empty only if both parts are; then one
character is copied and the scan advances, as in `re.sub`. -/
def reSubGAux (g1 g2 : RE) : Nat → List Char → List Char
  | 0, s => s
  | fuel + 1, s =>
    match firstMatchG g1 g2 s with
    | none => s
    | some (pre, keep, rest) =>
      if pre.length + rest.length = s.length then
        match rest with
        | [] => pre ++ keep
        | c :: cs => pre ++ keep ++ c :: reSubGAux g1 g2 fuel cs
      else pre ++ keep ++ reSubGAux g1 g2 fuel rest

/-- Python's `re.sub(pattern, r'\1', s)` for the guard patterns. -/
def reSubG (g1 g2 : RE) (s : List Char) : List Char :=
  reSubGAux g1 g2 (s.length + 1) s

/-- Concatenation of a list of regexes. -/
def seqc (l : List RE) : RE :=
  l.foldr .cat .eps

/-- A literal string regex. -/
def str (s : String) : RE :=
  seqc (s.data.map .chr)

/-- The common shape of the four import patterns
`import\s*\{\s* … \s*\}\s*from\s*['\"]@/lib/auth/simple-auth['\"];\s*\n?`
with `inner` the imported-names part between the braces. -/
def importRE (inner : List RE) : RE :=
  seqc ([str "import", .star isPySpace, str "\x7b", .star isPySpace] ++ inner ++
    [.star isPySpace, str "\x7d", .star isPySpace, str "from", .star isPySpace,
     .cls isQuote, str "@/lib/auth/simple-auth", .cls isQuote, str ";",
     .star isPySpace, .opt isNL])

/-- First import pattern: single named import `requireAuth`. -/
def imp1 : RE := importRE [str "requireAuth"]

/-- Second import pattern: single named import `requireAdmin`. -/
def imp2 : RE := importRE [str "requireAdmin"]

/-- Third import pattern: `requireAuth,\s*requireAdmin`. -/
def imp3 : RE := importRE [str "requireAuth,", .star isPySpace, str "requireAdmin"]

/-- Fourth import pattern: `requireAdmin,\s*requireAuth`. -/
def imp4 : RE := importRE [str "requireAdmin,", .star isPySpace, str "requireAuth"]

/-- Capture group 1 of the guard patterns:
`(export\s+async\s+function\s+\w+\([^)]*\)\s*\{\s*)`. -/
def guardG1 : RE :=
  seqc [str "export", .plus isPySpace, str "async", .plus isPySpace,
    str "function", .plus isPySpace, .plus isWordChar, str "(",
    .star isNotRParen, str ")", .star isPySpace, str "\x7b", .star isPySpace]

/-- Body of a guard pattern after the capture group:
`\s*const\s+auth\s*=\s*CALL\([^)]*\);\s*if\s*\(\s*!auth\.isValid\s*\)\s*\{\s*return\s+auth\.response!\s*;\s*\}`
where `CALL` is `requireAuth` or `requireAdmin`. -/
def guardG2 (call : String) : RE :=
  seqc [.star isPySpace, str "const", .plus isPySpace, str "auth",
    .star isPySpace, str "=", .star isPySpace, str call, str "(",
    .star isNotRParen, str ")", str ";", .star isPySpace, str "if",
    .star isPySpace, str "(", .star isPySpace, str "!auth.isValid",
    .star isPySpace, str ")", .star isPySpace, str "\x7b", .star isPySpace,
    str "return", .plus isPySpace, str "auth.response!", .star isPySpace,
    str ";", .star isPySpace, str "\x7d"]

/-- The blank-line collapsing pattern `\n\s*\n\s*\n`. -/
def collapseRE : RE :=
  seqc [.chr '\n', .star isPySpace, .chr '\n', .star isPySpace, .chr '\n']

/-- The import-removal pass: the four `re.sub(pattern, '', content)`
calls in the script's order. -/
def applyImports (s : List Char) : List Char :=
  reSub imp4 [] (reSub imp3 [] (reSub imp2 [] (reSub imp1 [] s)))

/-- The guard-removal pass: the two `re.sub(pattern, r'\1', content)`
calls in the script's order (`requireAuth` first). -/
def applyGuards (s : List Char) : List Char :=
  reSubG guardG1 (guardG2 "requireAdmin") (reSubG guardG1 (guardG2 "requireAuth") s)

/-- The whitespace-cleanup pass `re.sub(r'\n\s*\n\s*\n', '\n\n', content)`. -/
def collapseBlank (s : List Char) : List Char :=
  reSub collapseRE ['\n', '\n'] s

/-- The whole textual transformation applied to one file's content:
the imports pass, then guard removal, then blank-line collapsing. -/
def transformChars (s : List Char) : List Char :=
  collapseBlank (applyGuards (applyImports s))

/-- String version of the transformation. -/
def transformContent (s : String) : String :=
  ⟨transformChars s.data⟩

/-- Outcome of processing one file: what was written (if anything),
the boolean returned by `remove_auth_from_file`, and the error
diagnostic `(path, message)` printed by the `except` handler, if any. -/
structure ProcResult where
  written : Option String
  retval : Bool
  err : Option (String × String)
  deriving DecidableEq, Repr

/-- The script's `remove_auth_from_file`. The read result is
`Except String String` (`.error e` models an exception raised while
opening or reading the file), and `writeErr` models an exception raised
while opening for write or writing (`some e`). Any exception is caught,
a diagnostic naming the path is recorded, and `False` is returned;
otherwise the file is written back only when the content changed. -/
def remove_auth_from_file (path : String) (readRes : Except String String)
    (writeErr : Option String) : ProcResult :=
  match readRes with
  | .error e => ⟨none, false, some (path, e)⟩
  | .ok content =>
    let newContent := transformContent content
    if newContent ≠ content then
      match writeErr with
      | none => ⟨some newContent, true, none⟩
      | some e => ⟨none, false, some (path, e)⟩
    else ⟨none, false, none⟩

/-- The per-file results of the script's `main` loop, which calls
`remove_auth_from_file` on every discovered file in order. -/
def mainResults (files : List (String × Except String String × Option String)) :
    List ProcResult :=
  files.map fun f => remove_auth_from_file f.1 f.2.1 f.2.2

/-- The `modified_count` printed by `main`: the number of files for which
`remove_auth_from_file` returned `True`. -/
def modifiedCount (files : List (String × Except String String × Option String)) : Nat :=
  (mainResults files).countP (·.retval)

/-! Helper lemmas about substitution when no match exists. -/

theorem reSubAux_of_none (r : RE) (repl : List Char) (s : List Char)
    (h : firstMatch r s = none) : ∀ fuel, reSubAux r repl fuel s = s := by
  intro fuel
  cases fuel with
  | zero => rfl
  | succ n => simp [reSubAux, h]

theorem reSub_of_none {r : RE} {repl s : List Char}
    (h : firstMatch r s = none) : reSub r repl s = s :=
  reSubAux_of_none r repl s h _

theorem reSubGAux_of_none (g1 g2 : RE) (s : List Char)
    (h : firstMatchG g1 g2 s = none) : ∀ fuel, reSubGAux g1 g2 fuel s = s := by
  intro fuel
  cases fuel with
  | zero => rfl
  | succ n => simp [reSubGAux, h]

theorem reSubG_of_none {g1 g2 : RE} {s : List Char}
    (h : firstMatchG g1 g2 s = none) : reSubG g1 g2 s = s :=
  reSubGAux_of_none g1 g2 s h _

/-- A content in which none of the seven patterns has a match is left
unchanged by the whole transformation. -/
theorem transformChars_of_no_match (l : List Char)
    (h1 : firstMatch imp1 l = none) (h2 : firstMatch imp2 l = none)
    (h3 : firstMatch imp3 l = none) (h4 : firstMatch imp4 l = none)
    (h5 : firstMatchG guardG1 (guardG2 "requireAuth") l = none)
    (h6 : firstMatchG guardG1 (guardG2 "requireAdmin") l = none)
    (h7 : firstMatch collapseRE l = none) :
    transformChars l = l := by
  unfold transformChars applyImports applyGuards collapseBlank
  rw [reSub_of_none h1, reSub_of_none h2, reSub_of_none h3, reSub_of_none h4,
    reSubG_of_none h5, reSubG_of_none h6, reSub_of_none h7]

theorem transformContent_of_no_match (c : String)
    (h1 : firstMatch imp1 c.data = none) (h2 : firstMatch imp2 c.data = none)
    (h3 : firstMatch imp3 c.data = none) (h4 : firstMatch imp4 c.data = none)
    (h5 : firstMatchG guardG1 (guardG2 "requireAuth") c.data = none)
    (h6 : firstMatchG guardG1 (guardG2 "requireAdmin") c.data = none)
    (h7 : firstMatch collapseRE c.data = none) :
    transformContent c = c := by
  obtain ⟨l⟩ := c
  show String.mk (transformChars l) = String.mk l
  rw [transformChars_of_no_match l h1 h2 h3 h4 h5 h6 h7]

set_option maxRecDepth 40000 in
/-- C2 (counterexample): the content `"a\n\n\n\nb"` contains none of the
four import patterns and neither guard pattern, yet processing changes it
(the unconditional blank-line collapsing rewrites it to `"a\n\nb"`) and
the file is reported as modified, refuting the claim that absence of
the import and guard patterns implies the file is left unchanged. -/
theorem c2_counterexample :
    firstMatch imp1 ("a\n\n\n\nb").data = none ∧
    firstMatch imp2 ("a\n\n\n\nb").data = none ∧
    firstMatch imp3 ("a\n\n\n\nb").data = none ∧
    firstMatch imp4 ("a\n\n\n\nb").data = none ∧
    firstMatchG guardG1 (guardG2 "requireAuth") ("a\n\n\n\nb").data = none ∧
    firstMatchG guardG1 (guardG2 "requireAdmin") ("a\n\n\n\nb").data = none ∧
    transformContent "a\n\n\n\nb" = "a\n\nb" ∧
    remove_auth_from_file "f.ts" (.ok "a\n\n\n\nb") none =
      ⟨some "a\n\nb", true, none⟩ :=
  ⟨by decide, by decide, by decide, by decide, by decide, by decide,
    by decide, by decide⟩

/-- C2 (amended): for every file in which none of the four import
patterns, neither guard pattern, and no occurrence of the blank-line
collapsing pattern `\n\s*\n\s*\n` appears anywhere, the content after
processing equals the content before, no write occurs, and the file is
reported as unmodified. -/
theorem c2_no_pattern_unchanged (p : String) (w : Option String) (c : String)
    (h1 : firstMatch imp1 c.data = none) (h2 : firstMatch imp2 c.data = none)
    (h3 : firstMatch imp3 c.data = none) (h4 : firstMatch imp4 c.data = none)
    (h5 : firstMatchG guardG1 (guardG2 "requireAuth") c.data = none)
    (h6 : firstMatchG guardG1 (guardG2 "requireAdmin") c.data = none)
    (h7 : firstMatch collapseRE c.data = none) :
    transformContent c = c ∧
    remove_auth_from_file p (.ok c) w = ⟨none, false, none⟩ := by
  have ht := transformContent_of_no_match c h1 h2 h3 h4 h5 h6 h7
  refine ⟨ht, ?_⟩
  simp [remove_auth_from_file, ht]

/-- Witness for `c2_no_pattern_unchanged` at a concrete pattern-free file. -/
theorem c2_witness :
    transformContent "const x = 1;\n" = "const x = 1;\n" ∧
    remove_auth_from_file "f.ts" (.ok "const x = 1;\n") none =
      ⟨none, false, none⟩ :=
  c2_no_pattern_unchanged "f.ts" none "const x = 1;\n"
    (by decide) (by decide) (by decide) (by decide) (by decide) (by decide)
    (by decide)

set_option maxRecDepth 40000 in
/-- C3 (counterexample): the transformation is not idempotent. In this
content the fourth import pattern matches a full import statement whose
removal splices the surrounding text `"…fr" ++ "om …"` into a new
occurrence of the first import pattern, which only a second run removes:
the first run yields `import { requireAuth } from '@/lib/auth/simple-auth';`
and the second run yields the empty string. -/
theorem c3_counterexample :
    transformContent (transformContent
      "import \x7b requireAuth \x7d frimport \x7b requireAdmin, requireAuth \x7d from \x27@/lib/auth/simple-auth\x27;\nom \x27@/lib/auth/simple-auth\x27;") ≠
    transformContent
      "import \x7b requireAuth \x7d frimport \x7b requireAdmin, requireAuth \x7d from \x27@/lib/auth/simple-auth\x27;\nom \x27@/lib/auth/simple-auth\x27;" := by
  decide

/-- C3 (amended): the transformation is idempotent on every content whose
first-pass output contains no occurrence of any of the seven patterns; in
general a removal can splice adjacent text into a new pattern occurrence,
so a second run may change the file further. -/
theorem c3_idempotent_of_no_match (c : String)
    (h1 : firstMatch imp1 (transformContent c).data = none)
    (h2 : firstMatch imp2 (transformContent c).data = none)
    (h3 : firstMatch imp3 (transformContent c).data = none)
    (h4 : firstMatch imp4 (transformContent c).data = none)
    (h5 : firstMatchG guardG1 (guardG2 "requireAuth") (transformContent c).data = none)
    (h6 : firstMatchG guardG1 (guardG2 "requireAdmin") (transformContent c).data = none)
    (h7 : firstMatch collapseRE (transformContent c).data = none) :
    transformContent (transformContent c) = transformContent c :=
  transformContent_of_no_match (transformContent c) h1 h2 h3 h4 h5 h6 h7

/-- Witness for `c3_idempotent_of_no_match` at a concrete input that the
first run modifies. -/
theorem c3_witness :
    transformContent (transformContent "a\n\n\n\nb") = transformContent "a\n\n\n\nb" :=
  c3_idempotent_of_no_match "a\n\n\n\nb"
    (by decide) (by decide) (by decide) (by decide) (by decide) (by decide)
    (by decide)

set_option maxRecDepth 40000 in
/-- C1 (counterexample): on the spec's example function the output is not
`export async function GET(req) {\n  return doWork();\n}`: the guard
replacement keeps the whitespace captured after the opening brace, which
leaves a line holding two spaces, and the blank-line collapsing does not
remove it because only two newlines are adjacent there. -/
theorem c1_counterexample :
    transformContent
      "export async function GET(req) \x7b\n  const auth = requireAuth(req);\n  if (!auth.isValid) \x7b\n    return auth.response!;\n  \x7d\n  return doWork();\n\x7d" ≠
    "export async function GET(req) \x7b\n  return doWork();\n\x7d" := by
  decide

set_option maxRecDepth 40000 in
/-- C1 (amended): processing the spec's example function produces
`export async function GET(req) {\n  \n  return doWork();\n}` — the
function header followed by the retained captured whitespace (leaving a
line of two spaces) and the body without the guard — and the file is
reported as modified. -/
theorem c1_guard_removed :
    transformContent
      "export async function GET(req) \x7b\n  const auth = requireAuth(req);\n  if (!auth.isValid) \x7b\n    return auth.response!;\n  \x7d\n  return doWork();\n\x7d" =
    "export async function GET(req) \x7b\n  \n  return doWork();\n\x7d" ∧
    remove_auth_from_file "route.ts"
      (.ok "export async function GET(req) \x7b\n  const auth = requireAuth(req);\n  if (!auth.isValid) \x7b\n    return auth.response!;\n  \x7d\n  return doWork();\n\x7d")
      none =
    ⟨some "export async function GET(req) \x7b\n  \n  return doWork();\n\x7d",
      true, none⟩ :=
  ⟨by decide, by decide⟩

/-- C8: when the transformed content equals the original, the function
reports no modification, records no error, and performs no write — even
if a write would have failed. -/
theorem c8_unchanged_no_write (p : String) (c : String) (w : Option String)
    (h : transformContent c = c) :
    remove_auth_from_file p (.ok c) w = ⟨none, false, none⟩ := by
  simp [remove_auth_from_file, h]

/-- Witness for `c8_unchanged_no_write` at a concrete unchanged file. -/
theorem c8_witness :
    remove_auth_from_file "f.ts" (.ok "const x = 1;\n") (some "disk full") =
      ⟨none, false, none⟩ :=
  c8_unchanged_no_write "f.ts" "const x = 1;\n" (some "disk full") (by decide)

/-- The boolean returned by `remove_auth_from_file` is `true` exactly when
the file was written. -/
theorem retval_eq_written_isSome (p : String) (r : Except String String)
    (w : Option String) :
    (remove_auth_from_file p r w).retval = (remove_auth_from_file p r w).written.isSome := by
  cases r with
  | error e => rfl
  | ok c =>
    by_cases hc : transformContent c = c
    · simp [remove_auth_from_file, hc]
    · cases w with
      | none => simp [remove_auth_from_file, hc]
      | some e => simp [remove_auth_from_file, hc]

/-- C10: `remove_auth_from_file` returns `True` exactly when the read
succeeded, the transformed content differs from the original, and the
write succeeded; it returns `False` both for an unchanged file and for
any caught exception, and the final modified count equals the number of
files actually rewritten. -/
theorem c10_retval_characterization :
    (∀ (p : String) (r : Except String String) (w : Option String),
      ((remove_auth_from_file p r w).retval = true ↔
        ∃ c, r = Except.ok c ∧ transformContent c ≠ c ∧ w = none) ∧
      (remove_auth_from_file p r w).retval =
        (remove_auth_from_file p r w).written.isSome) ∧
    ∀ files, modifiedCount files =
      (mainResults files).countP (fun x => x.written.isSome) := by
  constructor
  · intro p r w
    refine ⟨?_, retval_eq_written_isSome p r w⟩
    cases r with
    | error e => simp [remove_auth_from_file]
    | ok c =>
      by_cases hc : transformContent c = c
      · simp [remove_auth_from_file, hc]
      · cases w with
        | none => simp [remove_auth_from_file, hc]
        | some e => simp [remove_auth_from_file, hc]
  · intro files
    unfold modifiedCount
    refine List.countP_congr ?_
    intro x hx
    simp only [mainResults, List.mem_map] at hx
    obtain ⟨f, _, hfx⟩ := hx
    subst hfx
    rw [retval_eq_written_isSome]

/-- C7: a failure on one file - a read error, or a write error on a file
whose content the transformation changed - is contained: the result list
still has one entry per file, the failing file's entry carries the
diagnostic naming that path and error with a `False` return and no
write, the files before and after it are processed exactly as they would
be on their own, and the failing file does not contribute to the
modified count (the count equals that of the file list with it removed). -/
theorem c7_per_file_error_contained
    (files : List (String × Except String String × Option String))
    (i : Nat) (h : i < files.length) (p e : String)
    (hf : (∃ wo, files.get ⟨i, h⟩ = (p, Except.error e, wo)) ∨
      (∃ c, files.get ⟨i, h⟩ = (p, Except.ok c, some e) ∧
        transformContent c ≠ c)) :
    (mainResults files).length = files.length ∧
    mainResults files =
      mainResults (files.take i) ++ ⟨none, false, some (p, e)⟩ ::
        mainResults (files.drop (i + 1)) ∧
    modifiedCount files = modifiedCount (files.eraseIdx i) := by
  have hone : remove_auth_from_file (files.get ⟨i, h⟩).1
      (files.get ⟨i, h⟩).2.1 (files.get ⟨i, h⟩).2.2 =
      ⟨none, false, some (p, e)⟩ := by
    rcases hf with ⟨wo, hf⟩ | ⟨c, hf, hc⟩
    · rw [hf]
      rfl
    · rw [hf]
      simp only [remove_auth_from_file]
      rw [if_pos hc]
  have hd : files = files.take i ++ files.get ⟨i, h⟩ :: files.drop (i + 1) := by
    conv_lhs => rw [← List.take_append_drop i files]
    rw [List.drop_eq_getElem_cons h, List.get_eq_getElem]
  have hmain : mainResults files =
      mainResults (files.take i) ++ ⟨none, false, some (p, e)⟩ ::
        mainResults (files.drop (i + 1)) := by
    conv_lhs => rw [hd]
    simp only [mainResults, List.map_append, List.map_cons]
    rw [hone]
  refine ⟨by simp [mainResults], hmain, ?_⟩
  unfold modifiedCount
  rw [hmain, List.eraseIdx_eq_take_drop_succ]
  simp [mainResults, List.countP_append, List.countP_cons]

set_option maxRecDepth 40000 in
/-- Witness for `c7_per_file_error_contained`: the first file's write
fails after its content changed; the second file is processed normally. -/
theorem c7_witness :
    (mainResults [("bad.ts", Except.ok "a\n\n\n\nb", some "No space left on device"),
        ("ok.ts", Except.ok "a\n\n\n\nb", none)]).length =
      ([("bad.ts", Except.ok "a\n\n\n\nb", some "No space left on device"),
        ("ok.ts", Except.ok "a\n\n\n\nb", none)] :
        List (String × Except String String × Option String)).length ∧
    mainResults [("bad.ts", Except.ok "a\n\n\n\nb", some "No space left on device"),
        ("ok.ts", Except.ok "a\n\n\n\nb", none)] =
      mainResults ([("bad.ts", Except.ok "a\n\n\n\nb", some "No space left on device"),
        ("ok.ts", Except.ok "a\n\n\n\nb", none)].take 0) ++
        ⟨none, false, some ("bad.ts", "No space left on device")⟩ ::
        mainResults ([("bad.ts", Except.ok "a\n\n\n\nb", some "No space left on device"),
          ("ok.ts", Except.ok "a\n\n\n\nb", none)].drop 1) ∧
    modifiedCount [("bad.ts", Except.ok "a\n\n\n\nb", some "No space left on device"),
        ("ok.ts", Except.ok "a\n\n\n\nb", none)] =
      modifiedCount ([("bad.ts", Except.ok "a\n\n\n\nb", some "No space left on device"),
        ("ok.ts", Except.ok "a\n\n\n\nb", none)].eraseIdx 0) :=
  c7_per_file_error_contained
    [("bad.ts", Except.ok "a\n\n\n\nb", some "No space left on device"),
      ("ok.ts", Except.ok "a\n\n\n\nb", none)]
    0 (by decide) "bad.ts" "No space left on device"
    (Or.inr ⟨"a\n\n\n\nb", rfl, by decide⟩)

/-! Lemmas about the blank-line collapsing pattern `\n\s*\n\s*\n`. -/

theorem isPySpace_nl : isPySpace '\n' = true := rfl

theorem ne_nl_of_not_space {c : Char} (h : isPySpace c = false) : (c = '\n') = False := by
  simp only [eq_iff_iff, iff_false]
  intro hc
  rw [hc] at h
  exact absurd h (by decide)

theorem starRems_no_space {s : List Char} (hs : ∀ c ∈ s, isPySpace c = false) :
    starRems isPySpace s = [s] := by
  cases s with
  | nil => rfl
  | cons c cs => simp [starRems, hs c (by simp)]

theorem rems_chr_nl_no_space {s : List Char} (hs : ∀ c ∈ s, isPySpace c = false) :
    rems (.chr '\n') s = [] := by
  cases s with
  | nil => rfl
  | cons c cs => simp [rems, ne_nl_of_not_space (hs c (by simp))]

theorem starRems_head_nospace {s : List Char}
    (hs : ∀ c, s.head? = some c → isPySpace c = false) :
    starRems isPySpace s = [s] := by
  cases s with
  | nil => rfl
  | cons c cs => simp [starRems, hs c rfl]

theorem rems_chr_nl_head {s : List Char}
    (hs : ∀ c, s.head? = some c → isPySpace c = false) :
    rems (.chr '\n') s = [] := by
  cases s with
  | nil => rfl
  | cons c cs => simp [rems, ne_nl_of_not_space (hs c rfl)]

theorem collapse_tail_head (n : Nat) (s : List Char)
    (hs : ∀ c, s.head? = some c → isPySpace c = false) :
    (rems (RE.cat (.star isPySpace) (RE.cat (.chr '\n') (RE.cat (.star isPySpace)
        (RE.cat (.chr '\n') RE.eps)))) (List.replicate (n + 2) '\n' ++ s)).head? =
      some s := by
  induction n with
  | zero =>
    simp [rems, starRems, List.replicate, isPySpace_nl, starRems_head_nospace hs,
      rems_chr_nl_head hs]
  | succ m ih =>
    have hrw : List.replicate (m + 3) '\n' ++ s =
        '\n' :: (List.replicate (m + 2) '\n' ++ s) := by
      simp [List.replicate_succ]
    rw [hrw]
    have hst : starRems isPySpace ('\n' :: (List.replicate (m + 2) '\n' ++ s)) =
        starRems isPySpace (List.replicate (m + 2) '\n' ++ s) ++
          ['\n' :: (List.replicate (m + 2) '\n' ++ s)] := by
      simp [starRems, isPySpace_nl]
    show ((starRems isPySpace ('\n' :: (List.replicate (m + 2) '\n' ++ s))).flatMap
        (rems (RE.cat (.chr '\n') (RE.cat (.star isPySpace)
          (RE.cat (.chr '\n') RE.eps))))).head? = some s
    rw [hst, List.flatMap_append]
    rw [List.head?_append_of_ne_nil]
    · exact ih
    · intro hnil
      have := ih
      rw [show (rems (RE.cat (.star isPySpace) (RE.cat (.chr '\n')
          (RE.cat (.star isPySpace) (RE.cat (.chr '\n') RE.eps))))
          (List.replicate (m + 2) '\n' ++ s)) =
          ((starRems isPySpace (List.replicate (m + 2) '\n' ++ s)).flatMap
            (rems (RE.cat (.chr '\n') (RE.cat (.star isPySpace)
              (RE.cat (.chr '\n') RE.eps))))) from rfl] at this
      rw [hnil] at this
      exact Option.noConfusion this

theorem tryMatch_collapse_run (k : Nat) (s : List Char)
    (hs : ∀ c, s.head? = some c → isPySpace c = false) :
    tryMatch collapseRE (List.replicate (k + 3) '\n' ++ s) = some s := by
  have hrw : List.replicate (k + 3) '\n' ++ s =
      '\n' :: (List.replicate (k + 2) '\n' ++ s) := by
    simp [List.replicate_succ]
  rw [hrw]
  show ((rems (.chr '\n') ('\n' :: (List.replicate (k + 2) '\n' ++ s))).flatMap
      (rems (RE.cat (.star isPySpace) (RE.cat (.chr '\n') (RE.cat (.star isPySpace)
        (RE.cat (.chr '\n') RE.eps)))))).head? = some s
  rw [show rems (.chr '\n') ('\n' :: (List.replicate (k + 2) '\n' ++ s)) =
      [List.replicate (k + 2) '\n' ++ s] by simp [rems]]
  rw [List.flatMap_cons, List.flatMap_nil, List.append_nil]
  exact collapse_tail_head k s hs

theorem tryMatch_collapse_one (s : List Char)
    (hs : ∀ c, s.head? = some c → isPySpace c = false) :
    tryMatch collapseRE ('\n' :: s) = none := by
  simp [tryMatch, collapseRE, seqc, rems, starRems_head_nospace hs,
    rems_chr_nl_head hs]

theorem tryMatch_collapse_two (s : List Char)
    (hs : ∀ c, s.head? = some c → isPySpace c = false) :
    tryMatch collapseRE ('\n' :: '\n' :: s) = none := by
  have h1 : starRems isPySpace ('\n' :: s) = [s] ++ ['\n' :: s] := by
    rw [starRems, if_pos isPySpace_nl, starRems_head_nospace hs]
  show ((rems (.chr '\n') ('\n' :: '\n' :: s)).flatMap
      (rems (RE.cat (.star isPySpace) (RE.cat (.chr '\n') (RE.cat (.star isPySpace)
        (RE.cat (.chr '\n') RE.eps)))))).head? = none
  rw [show rems (.chr '\n') ('\n' :: '\n' :: s) = ['\n' :: s] by simp [rems]]
  rw [List.flatMap_cons, List.flatMap_nil, List.append_nil]
  show ((starRems isPySpace ('\n' :: s)).flatMap
      (rems (RE.cat (.chr '\n') (RE.cat (.star isPySpace)
        (RE.cat (.chr '\n') RE.eps))))).head? = none
  rw [h1, List.flatMap_append]
  rw [show ([s] : List (List Char)).flatMap (rems (RE.cat (.chr '\n')
      (RE.cat (.star isPySpace) (RE.cat (.chr '\n') RE.eps)))) =
      (rems (.chr '\n') s).flatMap (rems (RE.cat (.star isPySpace)
        (RE.cat (.chr '\n') RE.eps))) by simp [rems]]
  rw [rems_chr_nl_head hs, List.flatMap_nil, List.nil_append]
  rw [show (['\n' :: s] : List (List Char)).flatMap (rems (RE.cat (.chr '\n')
      (RE.cat (.star isPySpace) (RE.cat (.chr '\n') RE.eps)))) =
      (starRems isPySpace s).flatMap (rems (RE.cat (.chr '\n') RE.eps)) by
        simp [rems]]
  rw [starRems_head_nospace hs]
  simp [rems, rems_chr_nl_head hs]

theorem tryMatch_collapse_no_space (s : List Char)
    (hs : ∀ c ∈ s, isPySpace c = false) :
    tryMatch collapseRE s = none := by
  cases s with
  | nil => rfl
  | cons c cs =>
    simp [tryMatch, collapseRE, seqc, rems, ne_nl_of_not_space (hs c (by simp))]


theorem firstMatch_collapse_skip (pfx : List Char)
    (hp : ∀ c ∈ pfx, isPySpace c = false) (t : List Char) :
    firstMatch collapseRE (pfx ++ t) =
      (firstMatch collapseRE t).map (fun x => (pfx ++ x.1, x.2.1, x.2.2)) := by
  induction pfx with
  | nil =>
    cases hft : firstMatch collapseRE t with
    | none => simp [hft]
    | some x => simp [hft]
  | cons c pfx ih =>
    have hc := hp c (by simp)
    have hrest : ∀ x ∈ pfx, isPySpace x = false := fun x hx => hp x (by simp [hx])
    have htm : tryMatch collapseRE (c :: (pfx ++ t)) = none := by
      simp [tryMatch, collapseRE, seqc, rems, ne_nl_of_not_space hc]
    show firstMatch collapseRE (c :: (pfx ++ t)) = _
    rw [show firstMatch collapseRE (c :: (pfx ++ t)) =
        (firstMatch collapseRE (pfx ++ t)).map (fun x => (c :: x.1, x.2.1, x.2.2)) by
      simp [firstMatch, htm]]
    rw [ih hrest]
    cases hft : firstMatch collapseRE t with
    | none => simp
    | some x => simp

theorem firstMatch_collapse_none (s : List Char)
    (hs : ∀ c ∈ s, isPySpace c = false) :
    firstMatch collapseRE s = none := by
  have h := firstMatch_collapse_skip s hs []
  rw [List.append_nil] at h
  rw [h]
  rfl

theorem firstMatch_collapse_run (k : Nat) (s : List Char)
    (hs : ∀ c, s.head? = some c → isPySpace c = false) :
    firstMatch collapseRE (List.replicate (k + 3) '\n' ++ s) =
      some ([], List.replicate (k + 3) '\n', s) := by
  have hrw : List.replicate (k + 3) '\n' ++ s =
      '\n' :: (List.replicate (k + 2) '\n' ++ s) := by
    simp [List.replicate_succ]
  have htm := tryMatch_collapse_run k s hs
  rw [hrw] at htm ⊢
  have harith : ('\n' :: (List.replicate (k + 2) '\n' ++ s)).length - s.length =
      k + 3 := by
    simp [List.length_append]
    omega
  have h1 : firstMatch collapseRE ('\n' :: (List.replicate (k + 2) '\n' ++ s)) =
      some ([], ('\n' :: (List.replicate (k + 2) '\n' ++ s)).take
        (('\n' :: (List.replicate (k + 2) '\n' ++ s)).length - s.length), s) := by
    simp only [firstMatch, htm]
  rw [h1, harith, ← hrw, List.take_left' (List.length_replicate (k + 3) '\n')]

set_option maxRecDepth 40000 in
/-- C4 (counterexample): a file starting with a run of two blank lines
(two newlines) is left unchanged — the pattern `\n\s*\n\s*\n` needs three
newlines — so a run of two or more consecutive blank lines is not always
collapsed to one blank line, refuting the claimed equivalence between
"two or more blank lines" and "three or more newlines". -/
theorem c4_counterexample :
    transformContent "\n\nx" = "\n\nx" ∧ ("\n\nx" : String) ≠ "\nx" := by
  exact ⟨by decide, by decide⟩

/-! Locality of the collapse pattern: a match attempt inside text that
contains a non-whitespace character never reads past that character, so
a failure there is preserved under appending arbitrary text. -/

theorem starRems_append_of_dropWhile_ne (p : Char → Bool) (t x : List Char)
    (h : x.dropWhile p ≠ []) :
    starRems p (x ++ t) = (starRems p x).map (· ++ t) := by
  induction x with
  | nil => exact absurd rfl h
  | cons a x' ih =>
    by_cases hp : p a
    · have h' : x'.dropWhile p ≠ [] := by
        rwa [List.dropWhile_cons, if_pos hp] at h
      show starRems p (a :: (x' ++ t)) = _
      rw [show starRems p (a :: (x' ++ t)) =
          starRems p (x' ++ t) ++ [a :: (x' ++ t)] by simp [starRems, hp]]
      rw [show starRems p (a :: x') = starRems p x' ++ [a :: x']
          by simp [starRems, hp]]
      rw [ih h', List.map_append]
      simp
    · show starRems p (a :: (x' ++ t)) = _
      rw [show starRems p (a :: (x' ++ t)) = [a :: (x' ++ t)]
          by simp [starRems, hp]]
      rw [show starRems p (a :: x') = [a :: x'] by simp [starRems, hp]]
      simp

theorem dropWhile_of_mem_starRems (p : Char → Bool) (x a : List Char)
    (ha : a ∈ starRems p x) : a.dropWhile p = x.dropWhile p := by
  induction x with
  | nil =>
    simp [starRems] at ha
    rw [ha]
  | cons c x' ih =>
    by_cases hp : p c
    · rw [show starRems p (c :: x') = starRems p x' ++ [c :: x']
          by simp [starRems, hp]] at ha
      rcases List.mem_append.mp ha with h1 | h2
      · rw [ih h1, List.dropWhile_cons, if_pos hp]
      · simp at h2
        rw [h2]
    · rw [show starRems p (c :: x') = [c :: x'] by simp [starRems, hp]] at ha
      simp at ha
      rw [ha]

theorem rems_nl_eps_append_nil (b t : List Char) (hb : b ≠ [])
    (h : rems (RE.cat (.chr '\n') RE.eps) b = []) :
    rems (RE.cat (.chr '\n') RE.eps) (b ++ t) = [] := by
  cases b with
  | nil => exact absurd rfl hb
  | cons d b' =>
    by_cases hd : d = '\n'
    · rw [hd] at h
      simp [rems] at h
    · show rems (RE.cat (.chr '\n') RE.eps) (d :: (b' ++ t)) = []
      simp [rems, hd]

theorem rems_nl_tail_append_nil (a t : List Char)
    (ha : a.dropWhile isPySpace ≠ [])
    (h : rems (RE.cat (.chr '\n') (RE.cat (.star isPySpace)
        (RE.cat (.chr '\n') RE.eps))) a = []) :
    rems (RE.cat (.chr '\n') (RE.cat (.star isPySpace)
        (RE.cat (.chr '\n') RE.eps))) (a ++ t) = [] := by
  cases a with
  | nil => exact absurd rfl ha
  | cons d a' =>
    by_cases hd : d = '\n'
    · subst hd
      have ha' : a'.dropWhile isPySpace ≠ [] := by
        rwa [List.dropWhile_cons, if_pos isPySpace_nl] at ha
      have hred : ∀ y : List Char, rems (RE.cat (.chr '\n')
          (RE.cat (.star isPySpace) (RE.cat (.chr '\n') RE.eps))) ('\n' :: y) =
          (starRems isPySpace y).flatMap (rems (RE.cat (.chr '\n') RE.eps)) := by
        intro y
        simp [rems]
      rw [hred] at h
      show rems (RE.cat (.chr '\n') (RE.cat (.star isPySpace)
          (RE.cat (.chr '\n') RE.eps))) ('\n' :: (a' ++ t)) = []
      rw [hred, starRems_append_of_dropWhile_ne _ _ _ ha']
      rw [List.flatMap_eq_nil_iff] at h ⊢
      intro y hy
      obtain ⟨b, hb, rfl⟩ := List.mem_map.mp hy
      have hbd : b.dropWhile isPySpace = a'.dropWhile isPySpace :=
        dropWhile_of_mem_starRems _ _ _ hb
      have hbne : b ≠ [] := by
        intro hbnil
        rw [hbnil] at hbd
        exact ha' (by simpa using hbd.symm)
      exact rems_nl_eps_append_nil b t hbne (h b hb)
    · show rems (RE.cat (.chr '\n') (RE.cat (.star isPySpace)
          (RE.cat (.chr '\n') RE.eps))) (d :: (a' ++ t)) = []
      simp [rems, hd]

theorem rems_collapse_tail_append_nil (x t : List Char)
    (hx : x.dropWhile isPySpace ≠ [])
    (h : rems (RE.cat (.star isPySpace) (RE.cat (.chr '\n')
        (RE.cat (.star isPySpace) (RE.cat (.chr '\n') RE.eps)))) x = []) :
    rems (RE.cat (.star isPySpace) (RE.cat (.chr '\n')
        (RE.cat (.star isPySpace) (RE.cat (.chr '\n') RE.eps)))) (x ++ t) = [] := by
  have hred : ∀ y : List Char, rems (RE.cat (.star isPySpace) (RE.cat (.chr '\n')
      (RE.cat (.star isPySpace) (RE.cat (.chr '\n') RE.eps)))) y =
      (starRems isPySpace y).flatMap (rems (RE.cat (.chr '\n')
        (RE.cat (.star isPySpace) (RE.cat (.chr '\n') RE.eps)))) := by
    intro y
    rfl
  rw [hred] at h
  rw [hred, starRems_append_of_dropWhile_ne _ _ _ hx]
  rw [List.flatMap_eq_nil_iff] at h ⊢
  intro y hy
  obtain ⟨b, hb, rfl⟩ := List.mem_map.mp hy
  have hbd : b.dropWhile isPySpace = x.dropWhile isPySpace :=
    dropWhile_of_mem_starRems _ _ _ hb
  exact rems_nl_tail_append_nil b t (by rw [hbd]; exact hx) (h b hb)

theorem tryMatch_collapse_append_none (x t : List Char)
    (hx : x.dropWhile isPySpace ≠ [])
    (h : tryMatch collapseRE x = none) :
    tryMatch collapseRE (x ++ t) = none := by
  cases x with
  | nil => exact absurd rfl hx
  | cons c x' =>
    by_cases hc : c = '\n'
    · subst hc
      have hx' : x'.dropWhile isPySpace ≠ [] := by
        rwa [List.dropWhile_cons, if_pos isPySpace_nl] at hx
      have h' : (rems (RE.cat (.star isPySpace) (RE.cat (.chr '\n')
          (RE.cat (.star isPySpace) (RE.cat (.chr '\n') RE.eps)))) x' ++
            ([] : List (List Char))).head? = none := h
      rw [List.append_nil, List.head?_eq_none_iff] at h'
      have hL := rems_collapse_tail_append_nil x' t hx' h'
      show (rems (RE.cat (.star isPySpace) (RE.cat (.chr '\n')
          (RE.cat (.star isPySpace) (RE.cat (.chr '\n') RE.eps)))) (x' ++ t) ++
            ([] : List (List Char))).head? = none
      rw [hL]
      rfl
    · show (rems collapseRE (c :: (x' ++ t))).head? = none
      simp [collapseRE, seqc, rems, hc]

theorem firstMatch_collapse_scan (p t : List Char)
    (hlast : ∀ h : p ≠ [], isPySpace (p.getLast h) = false)
    (hnm : firstMatch collapseRE p = none) :
    firstMatch collapseRE (p ++ t) =
      (firstMatch collapseRE t).map (fun x => (p ++ x.1, x.2.1, x.2.2)) := by
  induction p with
  | nil =>
    cases hft : firstMatch collapseRE t with
    | none => simp [hft]
    | some x => simp [hft]
  | cons c p' ih =>
    have htmp : tryMatch collapseRE (c :: p') = none := by
      cases htm : tryMatch collapseRE (c :: p') with
      | none => rfl
      | some r =>
        simp only [firstMatch, htm] at hnm
        exact absurd hnm (by simp)
    have hdw : (c :: p').dropWhile isPySpace ≠ [] := by
      intro hemp
      rw [List.dropWhile_eq_nil_iff] at hemp
      have hlc := hlast (by simp)
      have hmem := List.getLast_mem (show c :: p' ≠ [] by simp)
      have := hemp _ hmem
      rw [hlc] at this
      exact Bool.false_ne_true this
    have htm2 : tryMatch collapseRE (c :: (p' ++ t)) = none :=
      tryMatch_collapse_append_none (c :: p') t hdw htmp
    have hnm' : firstMatch collapseRE p' = none := by
      simp only [firstMatch, htmp] at hnm
      cases hfp : firstMatch collapseRE p' with
      | none => rfl
      | some x =>
        rw [hfp] at hnm
        simp at hnm
    have hlast' : ∀ h : p' ≠ [], isPySpace (p'.getLast h) = false := by
      intro h
      have hl := hlast (by simp)
      rw [List.getLast_cons h] at hl
      exact hl
    show firstMatch collapseRE (c :: (p' ++ t)) = _
    rw [show firstMatch collapseRE (c :: (p' ++ t)) =
        (firstMatch collapseRE (p' ++ t)).map (fun x => (c :: x.1, x.2.1, x.2.2))
        from by simp [firstMatch, htm2]]
    rw [ih hlast' hnm']
    cases hft : firstMatch collapseRE t with
    | none => simp
    | some x => simp

/-- C4 (amended): in any content `p ++ newline-run ++ s` whose run of
three or more consecutive newlines is bordered by a non-whitespace
character on each side (the last character of `p`, the first of `s`) and
whose flanks contain no other occurrence of the collapse pattern, the
cleanup pass rewrites the run - two or more blank lines - to exactly two
newlines, i.e. one blank line, and leaves a run of exactly two newlines
(a single blank line) unchanged, independently of the import and guard
passes, which act before it. -/
theorem c4_collapse_newline_runs (p s : List Char) (k : Nat)
    (hp : ∀ h : p ≠ [], isPySpace (p.getLast h) = false)
    (hs : ∀ c, s.head? = some c → isPySpace c = false)
    (hpm : firstMatch collapseRE p = none)
    (hsm : firstMatch collapseRE s = none) :
    collapseBlank (p ++ (List.replicate (k + 3) '\n' ++ s)) =
      p ++ '\n' :: '\n' :: s ∧
    collapseBlank (p ++ ('\n' :: '\n' :: s)) = p ++ '\n' :: '\n' :: s := by
  constructor
  · have hfm : firstMatch collapseRE (p ++ (List.replicate (k + 3) '\n' ++ s)) =
        some (p, List.replicate (k + 3) '\n', s) := by
      rw [firstMatch_collapse_scan p _ hp hpm, firstMatch_collapse_run k s hs]
      simp
    rw [show List.replicate (k + 3) '\n' = '\n' :: List.replicate (k + 2) '\n'
      from by simp [List.replicate_succ]] at hfm
    show reSubAux collapseRE ['\n', '\n']
        ((p ++ ('\n' :: List.replicate (k + 2) '\n' ++ s)).length + 1)
        (p ++ ('\n' :: List.replicate (k + 2) '\n' ++ s)) = p ++ '\n' :: '\n' :: s
    simp only [reSubAux, hfm]
    rw [reSubAux_of_none _ _ _ hsm]
    simp
  · have hnone : firstMatch collapseRE (p ++ ('\n' :: '\n' :: s)) = none := by
      rw [firstMatch_collapse_scan p _ hp hpm]
      rw [show firstMatch collapseRE ('\n' :: '\n' :: s) = none from ?_]
      · rfl
      · simp [firstMatch, tryMatch_collapse_two s hs, tryMatch_collapse_one s hs,
          hsm]
    exact reSub_of_none hnone

set_option maxRecDepth 40000 in
/-- Witness for `c4_collapse_newline_runs`: a four-newline run between
two flanks that themselves contain spaces. -/
theorem c4_witness :
    collapseBlank ("foo bar".data ++ (List.replicate 4 '\n' ++ "baz qux".data)) =
      "foo bar".data ++ '\n' :: '\n' :: "baz qux".data ∧
    collapseBlank ("foo bar".data ++ ('\n' :: '\n' :: "baz qux".data)) =
      "foo bar".data ++ '\n' :: '\n' :: "baz qux".data :=
  c4_collapse_newline_runs "foo bar".data "baz qux".data 1
    (fun h => by
      rw [show "foo bar".data.getLast h = 'r' from rfl]
      decide)
    (fun c hc => by
      have hcb : 'b' = c := Option.some.inj (show some 'b' = some c from hc)
      rw [← hcb]
      decide)
    (by decide) (by decide)

/-! Lemmas on the greedy-star remainders and maximal-munch behaviour. -/

theorem starRems_ne_nil (p : Char → Bool) (s : List Char) : starRems p s ≠ [] := by
  induction s with
  | nil => simp [starRems]
  | cons c cs ih =>
    by_cases h : p c
    · simp [starRems, h]
    · simp [starRems, h]

theorem starRems_head? (p : Char → Bool) (s : List Char) :
    (starRems p s).head? = some (s.dropWhile p) := by
  induction s with
  | nil => rfl
  | cons c cs ih =>
    by_cases h : p c
    · rw [show starRems p (c :: cs) = starRems p cs ++ [c :: cs] by simp [starRems, h]]
      rw [List.head?_append_of_ne_nil _ (starRems_ne_nil p cs), ih,
        List.dropWhile_cons, if_pos h]
    · simp [starRems, h, List.dropWhile_cons]

theorem dropWhile_head?_not (p : Char → Bool) (s : List Char) (c : Char)
    (h : (s.dropWhile p).head? = some c) : p c = false := by
  induction s with
  | nil => simp at h
  | cons a as ih =>
    rw [List.dropWhile_cons] at h
    by_cases ha : p a
    · exact ih (by simpa [ha] using h)
    · rw [if_neg (by simpa using ha)] at h
      simp at h
      rw [← h]
      simpa using ha

theorem length_dropWhile_le (p : Char → Bool) (s : List Char) :
    (s.dropWhile p).length ≤ s.length := by
  induction s with
  | nil => simp
  | cons a as ih =>
    rw [List.dropWhile_cons]
    by_cases h : p a
    · rw [if_pos h]
      exact le_trans ih (by simp)
    · rw [if_neg (by simpa using h)]

/-- The tail `\s*\n?` of every import pattern: from any position, the
priority-first remainder drops exactly the maximal whitespace run (the
greedy `\s*` eats every whitespace character, after which `\n?` cannot
consume anything). -/
theorem impTail_head (s : List Char) :
    ((starRems isPySpace s).flatMap
      (rems (RE.cat (.opt isNL) RE.eps))).head? = some (s.dropWhile isPySpace) := by
  have hne := starRems_ne_nil isPySpace s
  have hh := starRems_head? isPySpace s
  obtain ⟨t, ht⟩ : ∃ t, starRems isPySpace s = s.dropWhile isPySpace :: t := by
    cases hsr : starRems isPySpace s with
    | nil => exact absurd hsr hne
    | cons a t =>
      rw [hsr] at hh
      simp at hh
      exact ⟨t, by rw [hh]⟩
  rw [ht, List.flatMap_cons]
  have hfd : rems (RE.cat (.opt isNL) RE.eps) (s.dropWhile isPySpace) =
      [s.dropWhile isPySpace] := by
    cases hd : s.dropWhile isPySpace with
    | nil => rfl
    | cons c cs =>
      have hc : isPySpace c = false := dropWhile_head?_not _ _ _ (by rw [hd]; rfl)
      have hcn : (c = Char.ofNat 10) = False := ne_nl_of_not_space hc
      simp [rems, isNL, hcn]
  rw [hfd]
  rfl

set_option maxHeartbeats 1000000 in
/-- The first import pattern matches at the start of a content consisting
of its canonical statement text followed by anything, and the match
consumes the statement and every following whitespace character. -/
theorem tryMatch_imp1_at_start (s : List Char) :
    tryMatch imp1
      ("import \x7b requireAuth \x7d from \x27@/lib/auth/simple-auth\x27;".data ++ s) =
      some (s.dropWhile isPySpace) := by
  rw [← impTail_head s]
  simp [tryMatch, imp1, importRE, seqc, str, rems, starRems, isPySpace, isNL,
    isQuote, List.flatMap_cons, List.flatMap_nil]

set_option maxRecDepth 40000 in
/-- C5 (counterexample): import removal deletes more than the matching
line and its trailing newline — the trailing `\s*` also swallows the
leading whitespace of the following line, so the indented `  foo`
loses its indentation, refuting "and nothing else". -/
theorem c5_counterexample :
    transformContent
      "import \x7b requireAuth \x7d from \x27@/lib/auth/simple-auth\x27;\n  foo" =
      "foo" ∧ ("foo" : String) ≠ "  foo" := by
  exact ⟨by decide, by decide⟩

/-- One step of `reSubAux` at a successful non-empty leftmost match,
stated with an opaque fuel variable. -/
theorem reSubAux_succ_match (r : RE) (repl : List Char) (fuel : Nat)
    (s pre m rest : List Char) (c : Char)
    (hfm : firstMatch r s = some (pre, c :: m, rest)) :
    reSubAux r repl (fuel + 1) s = pre ++ repl ++ reSubAux r repl fuel rest := by
  simp only [reSubAux, hfm]

set_option maxRecDepth 40000 in
/-- C5 (amended): for a file consisting of the canonical `requireAuth`
statement text followed by anything, the processing deletes the
statement together with all immediately following whitespace — its
trailing newline, any blank lines, and the indentation of the next line —
and, provided the remaining text contains no further pattern occurrence,
the output is exactly that remaining text with its leading whitespace
stripped, and the file is reported as modified. -/
theorem c5_import_line_removed (s : List Char)
    (h1 : firstMatch imp1 (s.dropWhile isPySpace) = none)
    (h2 : firstMatch imp2 (s.dropWhile isPySpace) = none)
    (h3 : firstMatch imp3 (s.dropWhile isPySpace) = none)
    (h4 : firstMatch imp4 (s.dropWhile isPySpace) = none)
    (h5 : firstMatchG guardG1 (guardG2 "requireAuth") (s.dropWhile isPySpace) = none)
    (h6 : firstMatchG guardG1 (guardG2 "requireAdmin") (s.dropWhile isPySpace) = none)
    (h7 : firstMatch collapseRE (s.dropWhile isPySpace) = none) :
    transformChars
      ("import \x7b requireAuth \x7d from \x27@/lib/auth/simple-auth\x27;".data ++ s) =
      s.dropWhile isPySpace ∧
    remove_auth_from_file "f.ts"
      (.ok ⟨"import \x7b requireAuth \x7d from \x27@/lib/auth/simple-auth\x27;".data ++ s⟩)
      none =
      ⟨some ⟨s.dropWhile isPySpace⟩, true, none⟩ := by
  have hcons : ("import \x7b requireAuth \x7d from \x27@/lib/auth/simple-auth\x27;".data ++ s) =
      'i' :: ("mport \x7b requireAuth \x7d from \x27@/lib/auth/simple-auth\x27;".data ++ s) := rfl
  have htm := tryMatch_imp1_at_start s
  rw [hcons] at htm
  have hlen_d := length_dropWhile_le isPySpace s
  have htail_len : ("mport \x7b requireAuth \x7d from \x27@/lib/auth/simple-auth\x27;".data).length = 52 := by decide
  have hfm : firstMatch imp1
      ('i' :: ("mport \x7b requireAuth \x7d from \x27@/lib/auth/simple-auth\x27;".data ++ s)) =
      some ([], ('i' :: ("mport \x7b requireAuth \x7d from \x27@/lib/auth/simple-auth\x27;".data ++ s)).take
        (('i' :: ("mport \x7b requireAuth \x7d from \x27@/lib/auth/simple-auth\x27;".data ++ s)).length -
          (s.dropWhile isPySpace).length),
        s.dropWhile isPySpace) := by
    simp only [firstMatch, htm]
  obtain ⟨m, hm⟩ : ∃ m,
      ('i' :: ("mport \x7b requireAuth \x7d from \x27@/lib/auth/simple-auth\x27;".data ++ s)).length -
        (s.dropWhile isPySpace).length = m + 1 := by
    refine ⟨('i' :: ("mport \x7b requireAuth \x7d from \x27@/lib/auth/simple-auth\x27;".data ++ s)).length -
      (s.dropWhile isPySpace).length - 1, ?_⟩
    simp only [List.length_cons, List.length_append, htail_len]
    omega
  rw [hm, List.take_succ_cons] at hfm
  have e1 : reSub imp1 []
      ("import \x7b requireAuth \x7d from \x27@/lib/auth/simple-auth\x27;".data ++ s) =
      s.dropWhile isPySpace := by
    show reSubAux imp1 []
      (("import \x7b requireAuth \x7d from \x27@/lib/auth/simple-auth\x27;".data ++ s).length + 1)
      ("import \x7b requireAuth \x7d from \x27@/lib/auth/simple-auth\x27;".data ++ s) = _
    rw [hcons]
    rw [reSubAux_succ_match _ _ _ _ _ _ _ _ hfm]
    rw [reSubAux_of_none _ _ _ h1]
    simp
  have hAll : transformChars
      ("import \x7b requireAuth \x7d from \x27@/lib/auth/simple-auth\x27;".data ++ s) =
      s.dropWhile isPySpace := by
    unfold transformChars applyGuards collapseBlank applyImports
    rw [e1, reSub_of_none h2, reSub_of_none h3, reSub_of_none h4,
      reSubG_of_none h5, reSubG_of_none h6, reSub_of_none h7]
  refine ⟨hAll, ?_⟩
  have hthis : transformContent
      ⟨"import \x7b requireAuth \x7d from \x27@/lib/auth/simple-auth\x27;".data ++ s⟩ =
      ⟨s.dropWhile isPySpace⟩ := by
    show (⟨transformChars ("import \x7b requireAuth \x7d from \x27@/lib/auth/simple-auth\x27;".data ++ s)⟩ : String) = _
    rw [hAll]
  have hne2 : (⟨s.dropWhile isPySpace⟩ : String) ≠
      ⟨"import \x7b requireAuth \x7d from \x27@/lib/auth/simple-auth\x27;".data ++ s⟩ := by
    intro hcontra
    have hlen := congrArg (fun t : String => t.data.length) hcontra
    simp only [List.length_append] at hlen
    rw [show ("import \x7b requireAuth \x7d from \x27@/lib/auth/simple-auth\x27;".data).length = 53
      from by decide] at hlen
    omega
  show remove_auth_from_file _ _ _ = _
  simp only [remove_auth_from_file, hthis]
  rw [if_pos hne2]

/-- Witness for `c5_import_line_removed`: the import line followed by a
newline and an ordinary statement. -/
theorem c5_witness :
    transformChars
      ("import \x7b requireAuth \x7d from \x27@/lib/auth/simple-auth\x27;".data ++
        "\nconst x = 1;\n".data) =
      ("\nconst x = 1;\n".data).dropWhile isPySpace ∧
    remove_auth_from_file "f.ts"
      (.ok ⟨"import \x7b requireAuth \x7d from \x27@/lib/auth/simple-auth\x27;".data ++
        "\nconst x = 1;\n".data⟩)
      none =
      ⟨some ⟨("\nconst x = 1;\n".data).dropWhile isPySpace⟩, true, none⟩ :=
  c5_import_line_removed ("\nconst x = 1;\n".data)
    (by decide) (by decide) (by decide) (by decide) (by decide) (by decide)
    (by decide)

/-- Generic removal step: if a deleting pattern matches at the start of
the content with remainder `s.dropWhile isPySpace` and has no further
match in that remainder, the substitution yields exactly the remainder. -/
theorem reSub_delete_at_start (r : RE) (c0 : Char) (tl s : List Char)
    (htm : tryMatch r (c0 :: (tl ++ s)) = some (s.dropWhile isPySpace))
    (hcont : firstMatch r (s.dropWhile isPySpace) = none) :
    reSub r [] (c0 :: (tl ++ s)) = s.dropWhile isPySpace := by
  have hlen_d := length_dropWhile_le isPySpace s
  have hfm : firstMatch r (c0 :: (tl ++ s)) =
      some ([], (c0 :: (tl ++ s)).take
        ((c0 :: (tl ++ s)).length - (s.dropWhile isPySpace).length),
        s.dropWhile isPySpace) := by
    simp only [firstMatch, htm]
  obtain ⟨m, hm⟩ : ∃ m,
      (c0 :: (tl ++ s)).length - (s.dropWhile isPySpace).length = m + 1 := by
    refine ⟨(c0 :: (tl ++ s)).length - (s.dropWhile isPySpace).length - 1, ?_⟩
    simp only [List.length_cons, List.length_append]
    omega
  rw [hm, List.take_succ_cons] at hfm
  show reSubAux r [] ((c0 :: (tl ++ s)).length + 1) (c0 :: (tl ++ s)) = _
  rw [reSubAux_succ_match _ _ _ _ _ _ _ _ hfm]
  rw [reSubAux_of_none _ _ _ hcont]
  simp

set_option maxHeartbeats 1000000 in
/-- The third import pattern (`requireAuth, requireAdmin`) matches at the
start of its canonical statement text, consuming it and every following
whitespace character. -/
theorem tryMatch_imp3_at_start (s : List Char) :
    tryMatch imp3
      ("import \x7b requireAuth, requireAdmin \x7d from \x27@/lib/auth/simple-auth\x27;".data ++ s) =
      some (s.dropWhile isPySpace) := by
  rw [← impTail_head s]
  simp [tryMatch, imp3, importRE, seqc, str, rems, starRems, isPySpace, isNL,
    isQuote, List.flatMap_cons, List.flatMap_nil]

set_option maxHeartbeats 1000000 in
/-- The fourth import pattern (`requireAdmin, requireAuth`) matches at the
start of its canonical statement text, consuming it and every following
whitespace character. -/
theorem tryMatch_imp4_at_start (s : List Char) :
    tryMatch imp4
      ("import \x7b requireAdmin, requireAuth \x7d from \x27@/lib/auth/simple-auth\x27;".data ++ s) =
      some (s.dropWhile isPySpace) := by
  rw [← impTail_head s]
  simp [tryMatch, imp4, importRE, seqc, str, rems, starRems, isPySpace, isNL,
    isQuote, List.flatMap_cons, List.flatMap_nil]

set_option maxRecDepth 40000 in
/-- C9 (counterexample): the two orderings of the two-name import are not
always removed identically. Around the same surrounding text
`"import \x7b requireAdmin, requireAu" … "th \x7d from \x27…\x27;"`, the
Auth,Admin ordering is removed by the third pattern, and the resulting
splice forms a fourth-pattern import that the later fourth pass deletes,
giving the empty string; the Admin,Auth ordering is removed by the fourth
pattern itself, whose pass never rescans the splice, so a complete import
line survives - the two outputs differ. -/
theorem c9_counterexample :
    transformContent
      "import \x7b requireAdmin, requireAuimport \x7b requireAuth, requireAdmin \x7d from \x27@/lib/auth/simple-auth\x27;th \x7d from \x27@/lib/auth/simple-auth\x27;" =
      "" ∧
    transformContent
      "import \x7b requireAdmin, requireAuimport \x7b requireAdmin, requireAuth \x7d from \x27@/lib/auth/simple-auth\x27;th \x7d from \x27@/lib/auth/simple-auth\x27;" =
      "import \x7b requireAdmin, requireAuth \x7d from \x27@/lib/auth/simple-auth\x27;" ∧
    ("" : String) ≠
      "import \x7b requireAdmin, requireAuth \x7d from \x27@/lib/auth/simple-auth\x27;" :=
  ⟨by decide, by decide, by decide⟩

set_option maxRecDepth 40000 in
/-- C9 (amended): the two orderings of the two-name import are removed
identically whenever the surrounding text does not splice into a new
pattern occurrence: for a file consisting of either two-name import
statement followed by the same remaining text with no other pattern
occurrence, the two orderings produce the same output - the remaining
text with leading whitespace stripped - and both files are reported as
modified. In general the orderings can differ, since the third pattern's
pass runs before the fourth's. -/
theorem c9_two_name_import_order_independent (s : List Char)
    (ha1 : firstMatch imp1
      ("import \x7b requireAuth, requireAdmin \x7d from \x27@/lib/auth/simple-auth\x27;".data ++ s) = none)
    (ha2 : firstMatch imp2
      ("import \x7b requireAuth, requireAdmin \x7d from \x27@/lib/auth/simple-auth\x27;".data ++ s) = none)
    (hb1 : firstMatch imp1
      ("import \x7b requireAdmin, requireAuth \x7d from \x27@/lib/auth/simple-auth\x27;".data ++ s) = none)
    (hb2 : firstMatch imp2
      ("import \x7b requireAdmin, requireAuth \x7d from \x27@/lib/auth/simple-auth\x27;".data ++ s) = none)
    (hb3 : firstMatch imp3
      ("import \x7b requireAdmin, requireAuth \x7d from \x27@/lib/auth/simple-auth\x27;".data ++ s) = none)
    (h3d : firstMatch imp3 (s.dropWhile isPySpace) = none)
    (h4d : firstMatch imp4 (s.dropWhile isPySpace) = none)
    (h5 : firstMatchG guardG1 (guardG2 "requireAuth") (s.dropWhile isPySpace) = none)
    (h6 : firstMatchG guardG1 (guardG2 "requireAdmin") (s.dropWhile isPySpace) = none)
    (h7 : firstMatch collapseRE (s.dropWhile isPySpace) = none) :
    transformChars
      ("import \x7b requireAuth, requireAdmin \x7d from \x27@/lib/auth/simple-auth\x27;".data ++ s) =
    transformChars
      ("import \x7b requireAdmin, requireAuth \x7d from \x27@/lib/auth/simple-auth\x27;".data ++ s) ∧
    transformChars
      ("import \x7b requireAuth, requireAdmin \x7d from \x27@/lib/auth/simple-auth\x27;".data ++ s) =
      s.dropWhile isPySpace ∧
    remove_auth_from_file "a.ts"
      (.ok ⟨"import \x7b requireAuth, requireAdmin \x7d from \x27@/lib/auth/simple-auth\x27;".data ++ s⟩)
      none = ⟨some ⟨s.dropWhile isPySpace⟩, true, none⟩ ∧
    remove_auth_from_file "b.ts"
      (.ok ⟨"import \x7b requireAdmin, requireAuth \x7d from \x27@/lib/auth/simple-auth\x27;".data ++ s⟩)
      none = ⟨some ⟨s.dropWhile isPySpace⟩, true, none⟩ := by
  have hlen_d := length_dropWhile_le isPySpace s
  have hca : ("import \x7b requireAuth, requireAdmin \x7d from \x27@/lib/auth/simple-auth\x27;".data ++ s) =
      'i' :: ("mport \x7b requireAuth, requireAdmin \x7d from \x27@/lib/auth/simple-auth\x27;".data ++ s) := rfl
  have hcb : ("import \x7b requireAdmin, requireAuth \x7d from \x27@/lib/auth/simple-auth\x27;".data ++ s) =
      'i' :: ("mport \x7b requireAdmin, requireAuth \x7d from \x27@/lib/auth/simple-auth\x27;".data ++ s) := rfl
  have htm3 := tryMatch_imp3_at_start s
  have htm4 := tryMatch_imp4_at_start s
  rw [hca] at htm3
  rw [hcb] at htm4
  have e3 : reSub imp3 []
      ("import \x7b requireAuth, requireAdmin \x7d from \x27@/lib/auth/simple-auth\x27;".data ++ s) =
      s.dropWhile isPySpace := by
    rw [hca]
    exact reSub_delete_at_start imp3 'i' _ s htm3 h3d
  have e4 : reSub imp4 []
      ("import \x7b requireAdmin, requireAuth \x7d from \x27@/lib/auth/simple-auth\x27;".data ++ s) =
      s.dropWhile isPySpace := by
    rw [hcb]
    exact reSub_delete_at_start imp4 'i' _ s htm4 h4d
  have hAllA : transformChars
      ("import \x7b requireAuth, requireAdmin \x7d from \x27@/lib/auth/simple-auth\x27;".data ++ s) =
      s.dropWhile isPySpace := by
    unfold transformChars applyGuards collapseBlank applyImports
    rw [reSub_of_none ha1, reSub_of_none ha2, e3, reSub_of_none h4d,
      reSubG_of_none h5, reSubG_of_none h6, reSub_of_none h7]
  have hAllB : transformChars
      ("import \x7b requireAdmin, requireAuth \x7d from \x27@/lib/auth/simple-auth\x27;".data ++ s) =
      s.dropWhile isPySpace := by
    unfold transformChars applyGuards collapseBlank applyImports
    rw [reSub_of_none hb1, reSub_of_none hb2, reSub_of_none hb3, e4,
      reSubG_of_none h5, reSubG_of_none h6, reSub_of_none h7]
  refine ⟨hAllA.trans hAllB.symm, hAllA, ?_, ?_⟩
  · have hthis : transformContent
        ⟨"import \x7b requireAuth, requireAdmin \x7d from \x27@/lib/auth/simple-auth\x27;".data ++ s⟩ =
        ⟨s.dropWhile isPySpace⟩ := by
      show (⟨transformChars ("import \x7b requireAuth, requireAdmin \x7d from \x27@/lib/auth/simple-auth\x27;".data ++ s)⟩ : String) = _
      rw [hAllA]
    have hne2 : (⟨s.dropWhile isPySpace⟩ : String) ≠
        ⟨"import \x7b requireAuth, requireAdmin \x7d from \x27@/lib/auth/simple-auth\x27;".data ++ s⟩ := by
      intro hcontra
      have hlen := congrArg (fun t : String => t.data.length) hcontra
      simp only [List.length_append] at hlen
      rw [show ("import \x7b requireAuth, requireAdmin \x7d from \x27@/lib/auth/simple-auth\x27;".data).length = 67
        from by decide] at hlen
      omega
    show remove_auth_from_file _ _ _ = _
    simp only [remove_auth_from_file, hthis]
    rw [if_pos hne2]
  · have hthis : transformContent
        ⟨"import \x7b requireAdmin, requireAuth \x7d from \x27@/lib/auth/simple-auth\x27;".data ++ s⟩ =
        ⟨s.dropWhile isPySpace⟩ := by
      show (⟨transformChars ("import \x7b requireAdmin, requireAuth \x7d from \x27@/lib/auth/simple-auth\x27;".data ++ s)⟩ : String) = _
      rw [hAllB]
    have hne2 : (⟨s.dropWhile isPySpace⟩ : String) ≠
        ⟨"import \x7b requireAdmin, requireAuth \x7d from \x27@/lib/auth/simple-auth\x27;".data ++ s⟩ := by
      intro hcontra
      have hlen := congrArg (fun t : String => t.data.length) hcontra
      simp only [List.length_append] at hlen
      rw [show ("import \x7b requireAdmin, requireAuth \x7d from \x27@/lib/auth/simple-auth\x27;".data).length = 67
        from by decide] at hlen
      omega
    show remove_auth_from_file _ _ _ = _
    simp only [remove_auth_from_file, hthis]
    rw [if_pos hne2]

set_option maxRecDepth 40000 in
/-- Witness for `c9_two_name_import_order_independent` with the
two-name import followed by an ordinary statement. -/
theorem c9_witness :
    transformChars
      ("import \x7b requireAuth, requireAdmin \x7d from \x27@/lib/auth/simple-auth\x27;".data ++
        "\nconst x = 1;\n".data) =
    transformChars
      ("import \x7b requireAdmin, requireAuth \x7d from \x27@/lib/auth/simple-auth\x27;".data ++
        "\nconst x = 1;\n".data) ∧
    transformChars
      ("import \x7b requireAuth, requireAdmin \x7d from \x27@/lib/auth/simple-auth\x27;".data ++
        "\nconst x = 1;\n".data) =
      ("\nconst x = 1;\n".data).dropWhile isPySpace ∧
    remove_auth_from_file "a.ts"
      (.ok ⟨"import \x7b requireAuth, requireAdmin \x7d from \x27@/lib/auth/simple-auth\x27;".data ++
        "\nconst x = 1;\n".data⟩)
      none = ⟨some ⟨("\nconst x = 1;\n".data).dropWhile isPySpace⟩, true, none⟩ ∧
    remove_auth_from_file "b.ts"
      (.ok ⟨"import \x7b requireAdmin, requireAuth \x7d from \x27@/lib/auth/simple-auth\x27;".data ++
        "\nconst x = 1;\n".data⟩)
      none = ⟨some ⟨("\nconst x = 1;\n".data).dropWhile isPySpace⟩, true, none⟩ :=
  c9_two_name_import_order_independent ("\nconst x = 1;\n".data)
    (by decide) (by decide) (by decide) (by decide) (by decide) (by decide)
    (by decide) (by decide) (by decide) (by decide)

/-! Inversion lemmas: every successful match decomposes the input. -/

theorem head?_mem {α : Type} {l : List α} {a : α} (h : l.head? = some a) : a ∈ l := by
  cases l with
  | nil => simp at h
  | cons x xs =>
    simp at h
    rw [h]
    exact List.mem_cons_self a xs

theorem mem_starRems {p : Char → Bool} {s x : List Char} (h : x ∈ starRems p s) :
    ∃ w, s = w ++ x ∧ ∀ c ∈ w, p c = true := by
  induction s with
  | nil =>
    simp [starRems] at h
    exact ⟨[], by simp [h], by simp⟩
  | cons c cs ih =>
    by_cases hc : p c
    · rw [show starRems p (c :: cs) = starRems p cs ++ [c :: cs]
        by simp [starRems, hc]] at h
      rcases List.mem_append.mp h with h1 | h2
      · obtain ⟨w, hw, hall⟩ := ih h1
        refine ⟨c :: w, by simp [hw], ?_⟩
        intro d hd
        rcases List.mem_cons.mp hd with hd' | hd'
        · rw [hd']; exact hc
        · exact hall d hd'
      · simp at h2
        exact ⟨[], by simp [h2], by simp⟩
    · rw [show starRems p (c :: cs) = [c :: cs] by simp [starRems, hc]] at h
      simp at h
      exact ⟨[], by simp [h], by simp⟩

theorem mem_rems_suffix : ∀ (r : RE) (s x : List Char), x ∈ rems r s → ∃ w, s = w ++ x := by
  intro r
  induction r with
  | eps =>
    intro s x h
    simp [rems] at h
    exact ⟨[], by simp [h]⟩
  | chr c =>
    intro s x h
    cases s with
    | nil => simp [rems] at h
    | cons a as =>
      by_cases hac : a = c
      · simp [rems, hac] at h
        exact ⟨[a], by simp [h]⟩
      · simp [rems, hac] at h
  | cls p =>
    intro s x h
    cases s with
    | nil => simp [rems] at h
    | cons a as =>
      by_cases hp : p a
      · simp [rems, hp] at h
        exact ⟨[a], by simp [h]⟩
      · simp [rems, hp] at h
  | star p =>
    intro s x h
    obtain ⟨w, hw, _⟩ := mem_starRems (show x ∈ starRems p s from h)
    exact ⟨w, hw⟩
  | plus p =>
    intro s x h
    cases s with
    | nil => simp [rems] at h
    | cons a as =>
      by_cases hp : p a
      · simp only [rems, if_pos hp] at h
        obtain ⟨w, hw, _⟩ := mem_starRems h
        exact ⟨a :: w, by simp [hw]⟩
      · simp [rems, hp] at h
  | opt p =>
    intro s x h
    cases s with
    | nil =>
      simp [rems] at h
      exact ⟨[], by simp [h]⟩
    | cons a as =>
      by_cases hp : p a
      · simp [rems, hp] at h
        rcases h with h | h
        · exact ⟨[a], by simp [h]⟩
        · exact ⟨[], by simp [h]⟩
      · simp [rems, hp] at h
        exact ⟨[], by simp [h]⟩
  | cat a b iha ihb =>
    intro s x h
    simp only [rems, List.mem_flatMap] at h
    obtain ⟨m, hm, hx⟩ := h
    obtain ⟨w1, hw1⟩ := iha s m hm
    obtain ⟨w2, hw2⟩ := ihb m x hx
    exact ⟨w1 ++ w2, by rw [hw1, hw2, List.append_assoc]⟩

theorem mem_rems_cat_peel {A B : RE} {s x : List Char}
    (h : x ∈ rems (.cat A B) s) : ∃ w m, s = w ++ m ∧ x ∈ rems B m := by
  simp only [rems, List.mem_flatMap] at h
  obtain ⟨m, hm, hx⟩ := h
  obtain ⟨w, hw⟩ := mem_rems_suffix A s m hm
  exact ⟨w, m, hw, hx⟩

theorem mem_rems_chrSeq : ∀ (l : List Char) (s x : List Char),
    x ∈ rems (seqc (l.map .chr)) s → s = l ++ x := by
  intro l
  induction l with
  | nil =>
    intro s x h
    simp [seqc, rems] at h
    simp [h]
  | cons c l ih =>
    intro s x h
    rw [show seqc ((c :: l).map .chr) = RE.cat (.chr c) (seqc (l.map .chr))
      from rfl] at h
    simp only [rems, List.mem_flatMap] at h
    obtain ⟨m, hm, hx⟩ := h
    cases s with
    | nil => simp [rems] at hm
    | cons a as =>
      by_cases hac : a = c
      · subst hac
        simp [rems] at hm
        subst hm
        rw [show m = l ++ x from ih m x hx]
        rfl
      · simp [rems, hac] at hm

theorem mem_rems_cat_str {w : String} {R : RE} {s x : List Char}
    (h : x ∈ rems (.cat (str w) R) s) : ∃ m, s = w.data ++ m ∧ x ∈ rems R m := by
  simp only [rems, List.mem_flatMap] at h
  obtain ⟨m, hm, hx⟩ := h
  exact ⟨m, mem_rems_chrSeq w.data s m hm, hx⟩

theorem mem_rems_cat_star {p : Char → Bool} {R : RE} {s x : List Char}
    (h : x ∈ rems (.cat (.star p) R) s) :
    ∃ w m, s = w ++ m ∧ (∀ c ∈ w, p c = true) ∧ x ∈ rems R m := by
  simp only [rems, List.mem_flatMap] at h
  obtain ⟨m, hm, hx⟩ := h
  obtain ⟨w, hw, hall⟩ := mem_starRems (show m ∈ starRems p s from hm)
  exact ⟨w, m, hw, hall, hx⟩

theorem mem_rems_eps {s x : List Char} (h : x ∈ rems RE.eps s) : x = s := by
  simp [rems] at h
  exact h

/-- C6: a guard pattern match decomposes the content as a function header
ending in its opening brace, followed only by whitespace, followed
immediately by `const`: the guard-removal substitutions can only fire
where the guard block is the very first statement after the opening
brace, so a guard preceded by any other code is never matched and the
substitutions leave such content unchanged. -/
theorem c6_guard_matches_only_adjacent (call : String) (s r1 r2 : List Char)
    (h : tryMatchSplit guardG1 (guardG2 call) s = some (r1, r2)) :
    ∃ a w t, s = a ++ '\x7b' :: (w ++ ("const".data ++ t)) ∧
      ∀ c ∈ w, isPySpace c = true := by
  have h' : ((rems guardG1 s).flatMap
      (fun q1 => (rems (guardG2 call) q1).map (fun q2 => (q1, q2)))).head? =
      some (r1, r2) := h
  have hmem := head?_mem h'
  simp only [List.mem_flatMap, List.mem_map] at hmem
  obtain ⟨q1, hq1, q2, hq2, heq⟩ := hmem
  obtain ⟨he1, he2⟩ : q1 = r1 ∧ q2 = r2 := by
    constructor <;> [exact congrArg Prod.fst heq; exact congrArg Prod.snd heq]
  rw [he1] at hq1 hq2
  rw [he2] at hq2
  have hg1 : r1 ∈ rems (RE.cat (str "export") (RE.cat (.plus isPySpace)
      (RE.cat (str "async") (RE.cat (.plus isPySpace)
      (RE.cat (str "function") (RE.cat (.plus isPySpace)
      (RE.cat (.plus isWordChar) (RE.cat (str "(")
      (RE.cat (.star isNotRParen) (RE.cat (str ")")
      (RE.cat (.star isPySpace) (RE.cat (str "\x7b")
      (RE.cat (.star isPySpace) RE.eps))))))))))))) s := hq1
  obtain ⟨w1, m1, hs1, hm1⟩ := mem_rems_cat_peel hg1
  obtain ⟨w2, m2, hs2, hm2⟩ := mem_rems_cat_peel hm1
  obtain ⟨w3, m3, hs3, hm3⟩ := mem_rems_cat_peel hm2
  obtain ⟨w4, m4, hs4, hm4⟩ := mem_rems_cat_peel hm3
  obtain ⟨w5, m5, hs5, hm5⟩ := mem_rems_cat_peel hm4
  obtain ⟨w6, m6, hs6, hm6⟩ := mem_rems_cat_peel hm5
  obtain ⟨w7, m7, hs7, hm7⟩ := mem_rems_cat_peel hm6
  obtain ⟨w8, m8, hs8, hm8⟩ := mem_rems_cat_peel hm7
  obtain ⟨w9, m9, hs9, hm9⟩ := mem_rems_cat_peel hm8
  obtain ⟨w10, m10, hs10, hm10⟩ := mem_rems_cat_peel hm9
  obtain ⟨w11, m11, hs11, hm11⟩ := mem_rems_cat_peel hm10
  obtain ⟨m12, hs12, hm12⟩ := mem_rems_cat_str hm11
  obtain ⟨wA, m13, hs13, hallA, hm13⟩ := mem_rems_cat_star hm12
  have hr1m : r1 = m13 := mem_rems_eps hm13
  have hgd : guardG2 call = RE.cat (.star isPySpace) (RE.cat (str "const")
      (seqc [.plus isPySpace, str "auth", .star isPySpace, str "=",
        .star isPySpace, str call, str "(", .star isNotRParen, str ")",
        str ";", .star isPySpace, str "if", .star isPySpace, str "(",
        .star isPySpace, str "!auth.isValid", .star isPySpace, str ")",
        .star isPySpace, str "\x7b", .star isPySpace, str "return",
        .plus isPySpace, str "auth.response!", .star isPySpace, str ";",
        .star isPySpace, str "\x7d"])) := rfl
  rw [hgd] at hq2
  obtain ⟨wB, n1, hr1eq, hallB, hn1⟩ := mem_rems_cat_star hq2
  obtain ⟨n2, hn2, _⟩ := mem_rems_cat_str hn1
  refine ⟨w1 ++ (w2 ++ (w3 ++ (w4 ++ (w5 ++ (w6 ++ (w7 ++ (w8 ++ (w9 ++
    (w10 ++ w11))))))))), wA ++ wB, n2, ?_, ?_⟩
  · rw [hs1, hs2, hs3, hs4, hs5, hs6, hs7, hs8, hs9, hs10, hs11, hs12, hs13,
      ← hr1m, hr1eq, hn2]
    simp [List.append_assoc]
  · intro c hc
    rcases List.mem_append.mp hc with hc' | hc'
    · exact hallA c hc'
    · exact hallB c hc'

set_option maxRecDepth 40000 in
/-- Witness for `c6_guard_matches_only_adjacent` at the spec's example
function, whose guard follows the opening brace directly. -/
theorem c6_witness :
    ∃ a w t,
      ("export async function GET(req) \x7b\n  const auth = requireAuth(req);\n  if (!auth.isValid) \x7b\n    return auth.response!;\n  \x7d\n  return doWork();\n\x7d".data) =
        a ++ '\x7b' :: (w ++ ("const".data ++ t)) ∧
      ∀ c ∈ w, isPySpace c = true :=
  c6_guard_matches_only_adjacent "requireAuth"
    ("export async function GET(req) \x7b\n  const auth = requireAuth(req);\n  if (!auth.isValid) \x7b\n    return auth.response!;\n  \x7d\n  return doWork();\n\x7d".data)
    ("const auth = requireAuth(req);\n  if (!auth.isValid) \x7b\n    return auth.response!;\n  \x7d\n  return doWork();\n\x7d".data)
    ("\n  return doWork();\n\x7d".data)
    (by decide)
